import Mathlib

/-!
Verification of the secret subsystem of the ruby-libvirt binding
(`ext/libvirt/secret.c`) against its specification.

The binding itself is marshaling glue around an underlying secret store
(libvirt's virSecret driver together with the `common.h` helper macros);
that store is not part of the source excerpt, so it is modelled here from
the specification (§3–§4 of spec.md): a list of live records, an
association list from record UUID to payload bytes (the Value Vault), and
a ledger of buffers released back to the allocator together with their
contents at release time (used to state the secure-erase property).

The binding-level behaviour that IS in the source — the flags marshaling
of `libvirt_conn_define_secret_xml`, the missing numeric conversion in
`libvirt_conn_lookup_secret_by_usage`, the explicit-length byte passing of
`set_value`/`get_value` — is embedded directly from `secret.c`.
-/

set_option autoImplicit false

namespace VirtSecret

/-- Error taxonomy of the specification (§7). -/
inductive Err where
  | NotFound
  | DuplicateKey
  | MalformedDescriptor
  | StaleHandle
  | ValueNotSet
  deriving DecidableEq, Repr

/-- Modelled from the spec: a `SecretRecord` (§3) as produced by the external
XML codec — UUID string, usage type tag, usage ID and the descriptor blob.
The ephemeral/private flags play no role in the claims and are omitted. -/
structure SecretRecord where
  uuid : String
  usageType : Int
  usageID : String
  xml : String
  deriving DecidableEq, Repr

/-- Modelled from the spec: the state of the secret store (§2): the live
records of the Secret Record Store, the Value Vault as an association list
from UUID to payload bytes (a byte is a `Nat`; the length of the list is the
explicit length of the value), and `freedBuffers`, the contents of every
value buffer at the moment it was released back to the allocator — the
observable through which the secure-erase obligation of §4.3 is stated. -/
structure Store where
  records : List SecretRecord
  values : List (String × List Nat)
  freedBuffers : List (List Nat)
  deriving DecidableEq, Repr

def Store.empty : Store := ⟨[], [], []⟩

/-- First live record with the given UUID, if any. -/
def findRecord : List SecretRecord → String → Option SecretRecord
  | [], _ => none
  | r :: rest, u => if r.uuid = u then some r else findRecord rest u

/-- First live record with the given (usageType, usageID) pair, if any. -/
def findByUsage : List SecretRecord → Int → String → Option SecretRecord
  | [], _, _ => none
  | r :: rest, t, id =>
    if r.usageType = t ∧ r.usageID = id then some r else findByUsage rest t id

/-- Remove every record carrying the given UUID. -/
def removeRecord : List SecretRecord → String → List SecretRecord
  | [], _ => []
  | r :: rest, u =>
    if r.uuid = u then removeRecord rest u else r :: removeRecord rest u

/-- Whether a live record with this UUID exists. -/
def recordLive (st : Store) (u : String) : Bool :=
  (findRecord st.records u).isSome

/-- Whether a live record with this usage pair exists. -/
def usagePairLive (st : Store) (t : Int) (id : String) : Bool :=
  (findByUsage st.records t id).isSome

/-- Vault lookup: the value bytes stored for a UUID, if any. -/
def valuesLookup : List (String × List Nat) → String → Option (List Nat)
  | [], _ => none
  | (k, v) :: rest, u => if k = u then some v else valuesLookup rest u

/-- Remove the vault entry for a UUID. -/
def valuesRemove : List (String × List Nat) → String → List (String × List Nat)
  | [], _ => []
  | (k, v) :: rest, u =>
    if k = u then valuesRemove rest u else (k, v) :: valuesRemove rest u

/-- Overwrite (or create) the vault entry for a UUID. -/
def valuesInsert (vs : List (String × List Nat)) (u : String) (b : List Nat) :
    List (String × List Nat) :=
  (u, b) :: valuesRemove vs u

/-- Overwriting a buffer with zeros, keeping its length. -/
def zeroize (b : List Nat) : List Nat := b.map (fun _ => 0)

/-- Modelled from the spec: `clear(uuid)` of the Value Vault (§4.3, not in
src/): the stored bytes are overwritten with zeros before the buffer is
released (the released buffer's content is recorded in `freedBuffers`),
then the entry is removed. A UUID with no stored value clears to a no-op. -/
def clearValue (st : Store) (u : String) : Store :=
  match valuesLookup st.values u with
  | some b =>
    { st with
      values := valuesRemove st.values u
      freedBuffers := zeroize b :: st.freedBuffers }
  | none => st

/-- Modelled from the spec: `define` (§4.1 insert + §4.2 create, the
virSecretDefineXML store side, not in src/): fails with `DuplicateKey` when
the UUID, or — for a usage type other than NONE (0) — the
(usageType, usageID) pair, is already held by a live record; otherwise the
record is inserted. The returned handle is the record's UUID. -/
def defineSecret (st : Store) (d : SecretRecord) : Store × Except Err String :=
  if recordLive st d.uuid then (st, .error .DuplicateKey)
  else if d.usageType ≠ 0 ∧ usagePairLive st d.usageType d.usageID then
    (st, .error .DuplicateKey)
  else ({ st with records := d :: st.records }, .ok d.uuid)

/-- Modelled from the spec: `lookupByUUID` (§4.4, virSecretLookupByUUIDString
store side, not in src/): `NotFound` when no live record has the UUID. -/
def lookupByUUID (st : Store) (u : String) : Except Err String :=
  match findRecord st.records u with
  | some r => .ok r.uuid
  | none => .error .NotFound

/-- Modelled from the spec: `lookupByUsage` (§4.4, virSecretLookupByUsage
store side, not in src/): `NotFound` when no live record has the pair. -/
def lookupByUsage (st : Store) (t : Int) (id : String) : Except Err String :=
  match findByUsage st.records t id with
  | some r => .ok r.uuid
  | none => .error .NotFound

/-- Ruby's tagged representation of a fixnum `t` is the machine word
`2*t + 1`. `libvirt_conn_lookup_secret_by_usage` (secret.c line 92) passes
the raw `VALUE` for `usageType` to `virSecretLookupByUsage` with no
`NUM2INT`-style conversion, so this tag is what reaches the store. -/
def rubyFixnumTag (t : Int) : Int := 2 * t + 1

/-- Embedded from secret.c lines 85–96: the binding queries the store with
the raw tagged fixnum `rubyFixnumTag t` as the usage type. -/
def libvirt_conn_lookup_secret_by_usage (st : Store) (t : Int) (id : String) :
    Except Err String :=
  lookupByUsage st (rubyFixnumTag t) id

/-- The call the binding makes to the underlying `virSecretDefineXML`. -/
structure DefineCall where
  xml : String
  flags : Nat
  deriving DecidableEq, Repr

/-- Embedded from secret.c lines 104–118: an omitted flags argument defaults
to 0 (lines 111–112), and the flags value is converted with `NUM2UINT` and
forwarded unconditionally to `virSecretDefineXML` (line 114) — the binding
performs no zero-validation of its own. -/
def libvirt_conn_define_secret_xml_call (xml : String) (flags : Option Nat) :
    DefineCall :=
  { xml := xml, flags := match flags with | none => 0 | some f => f }

/-- Modelled from the spec: `getUUID` on a handle (§4.4/§6, not in src/):
`StaleHandle` once the underlying record has been undefined. -/
def secretUuid (st : Store) (u : String) : Except Err String :=
  match findRecord st.records u with
  | some r => .ok r.uuid
  | none => .error .StaleHandle

/-- Modelled from the spec: `getUsageType` on a handle (§4.4/§6, not in src/). -/
def secretUsagetype (st : Store) (u : String) : Except Err Int :=
  match findRecord st.records u with
  | some r => .ok r.usageType
  | none => .error .StaleHandle

/-- Modelled from the spec: `getUsageID` on a handle (§4.4/§6, not in src/). -/
def secretUsageID (st : Store) (u : String) : Except Err String :=
  match findRecord st.records u with
  | some r => .ok r.usageID
  | none => .error .StaleHandle

/-- Modelled from the spec: `getXMLDescriptor` on a handle (§4.4/§6, not in src/). -/
def secretXmlDesc (st : Store) (u : String) : Except Err String :=
  match findRecord st.records u with
  | some r => .ok r.xml
  | none => .error .StaleHandle

/-- Modelled from the spec: `setValue` (§4.3, virSecretSetValue store side,
not in src/), reached from secret.c lines 187–206, which pass the byte
buffer with its explicit length (`RSTRING(value)->ptr` /
`RSTRING(value)->len`), never as a NUL-terminated C string — hence the
payload is a whole byte list, zero bytes included. Overwrites any prior
value; `StaleHandle` when the record is gone. -/
def setValue (st : Store) (u : String) (b : List Nat) : Store × Except Err Unit :=
  match findRecord st.records u with
  | some _ => ({ st with values := valuesInsert st.values u b }, .ok ())
  | none => (st, .error .StaleHandle)

/-- Modelled from the spec: `getValue` (§4.3, virSecretGetValue store side,
not in src/), reached from secret.c lines 214–230, which rebuild the Ruby
string from the returned pointer and explicit `value_size`
(`rb_str_new(ret, value_size)`). `ValueNotSet` when no value was ever
stored for the record; `StaleHandle` when the record is gone. -/
def getValue (st : Store) (u : String) : Except Err (List Nat) :=
  match findRecord st.records u with
  | some _ =>
    match valuesLookup st.values u with
    | some b => .ok b
    | none => .error .ValueNotSet
  | none => .error .StaleHandle

/-- Modelled from the spec: `undefine` (§4.1 remove + §4.3 clear, the
virSecretUndefine store side, not in src/): removes the record from the
index and unconditionally clears its value on this destruction path;
`StaleHandle` when the record is already gone. -/
def undefineSecret (st : Store) (u : String) : Store × Except Err Unit :=
  match findRecord st.records u with
  | some _ =>
    (clearValue { st with records := removeRecord st.records u } u, .ok ())
  | none => (st, .error .StaleHandle)

/-- Modelled from the spec: `countSecrets` (§4.4, virConnectNumOfSecrets via
the `gen_conn_num_of` macro of common.h, not in src/). -/
def countSecrets (st : Store) : Int := st.records.length

/-- Modelled from the spec: `listSecretUUIDs` (§4.4, virConnectListSecrets
via the `gen_conn_list_names` macro of common.h, not in src/). -/
def listSecretUUIDs (st : Store) : List String :=
  st.records.map (fun r => r.uuid)

/-- A client-side Ruby handle: `ptr` mirrors the wrapped `virSecretPtr`
(`DATA_PTR`), which becomes `none` once the handle has been freed. -/
structure RbHandle where
  ptr : Option String
  deriving DecidableEq, Repr

/-- Modelled from the spec: `release` (§6, idempotent) — the binding's
`libvirt_secret_free` expands to the `gen_call_free` macro of common.h (not
in src/), which frees the wrapped pointer and nulls `DATA_PTR`, and is a
no-op returning nil when the pointer is already null. It never consults the
store, so it is independent of the underlying record's existence. -/
def libvirt_secret_free (h : RbHandle) : RbHandle × Except Err Unit :=
  match h.ptr with
  | none => (h, .ok ())
  | some _ => ({ ptr := none }, .ok ())

/-- Mutating operations of the store, used to describe reachable states. -/
inductive Op where
  | defineOp (d : SecretRecord)
  | setValueOp (u : String) (b : List Nat)
  | undefineOp (u : String)
  deriving DecidableEq, Repr

/-- The state reached after one operation (errors leave the state as the
operation returned it). -/
def applyOp (st : Store) : Op → Store
  | .defineOp d => (defineSecret st d).1
  | .setValueOp u b => (setValue st u b).1
  | .undefineOp u => (undefineSecret st u).1

/-- The state reached after a sequence of operations. -/
def runOps : Store → List Op → Store
  | st, [] => st
  | st, op :: ops => runOps (applyOp st op) ops

/-- Every byte of the buffer is zero. -/
def allZeros (b : List Nat) : Prop := ∀ x ∈ b, x = 0

/-- Concrete fixture: a VOLUME (usage type 1) secret descriptor. -/
def volDesc : SecretRecord :=
  { uuid := "aaaa", usageType := 1, usageID := "vol-1", xml := "<secret/>" }

/-- Concrete fixture: a distinct UUID reusing volDesc's usage pair. -/
def volDesc2 : SecretRecord :=
  { uuid := "bbbb", usageType := 1, usageID := "vol-1", xml := "<secret/>" }

/-- Concrete fixture: the store holding exactly `volDesc`. -/
def st1 : Store := (defineSecret Store.empty volDesc).1

/-- Concrete fixture: define a secret, set its value, undefine it. -/
def opsW : List Op :=
  [Op.defineOp volDesc, Op.setValueOp "aaaa" [5, 7], Op.undefineOp "aaaa"]

/-! ### Helper lemmas -/

theorem findRecord_removeRecord (l : List SecretRecord) (u : String) :
    findRecord (removeRecord l u) u = none := by
  induction l with
  | nil => rfl
  | cons r rest ih =>
    simp only [removeRecord]
    by_cases h : r.uuid = u
    · simpa [h] using ih
    · simpa [findRecord, h] using ih

theorem valuesLookup_insert_self (vs : List (String × List Nat)) (u : String)
    (b : List Nat) : valuesLookup (valuesInsert vs u b) u = some b := by
  simp [valuesInsert, valuesLookup]

theorem valuesLookup_remove_none (vs : List (String × List Nat)) (u u' : String)
    (h : valuesLookup vs u = none) :
    valuesLookup (valuesRemove vs u') u = none := by
  induction vs with
  | nil => rfl
  | cons p vs ih =>
    obtain ⟨k, v⟩ := p
    simp only [valuesLookup] at h
    by_cases hk : k = u
    · simp [hk] at h
    · have h' : valuesLookup vs u = none := by simpa [hk] using h
      simp only [valuesRemove]
      by_cases hk' : k = u'
      · simpa [hk'] using ih h'
      · simpa [valuesLookup, hk, hk'] using ih h'

theorem valuesLookup_insert_ne (vs : List (String × List Nat)) (u u' : String)
    (b : List Nat) (hne : ¬ u' = u) (h : valuesLookup vs u = none) :
    valuesLookup (valuesInsert vs u' b) u = none := by
  simp only [valuesInsert, valuesLookup, hne, if_neg]
  exact valuesLookup_remove_none vs u u' h

theorem defineSecret_values (st : Store) (d : SecretRecord) :
    ((defineSecret st d).1).values = st.values := by
  unfold defineSecret
  split
  · rfl
  · split <;> rfl

theorem defineSecret_freed (st : Store) (d : SecretRecord) :
    ((defineSecret st d).1).freedBuffers = st.freedBuffers := by
  unfold defineSecret
  split
  · rfl
  · split <;> rfl

theorem clearValue_records (st : Store) (u : String) :
    (clearValue st u).records = st.records := by
  unfold clearValue
  split <;> rfl

theorem clearValue_lookup_none (st : Store) (u u' : String)
    (h : valuesLookup st.values u = none) :
    valuesLookup (clearValue st u').values u = none := by
  unfold clearValue
  split
  · exact valuesLookup_remove_none st.values u u' h
  · exact h

theorem no_set_no_value (ops : List Op) (u : String) :
    ∀ st : Store, valuesLookup st.values u = none →
      (∀ b, Op.setValueOp u b ∉ ops) →
      valuesLookup (runOps st ops).values u = none := by
  induction ops with
  | nil => exact fun st hst _ => hst
  | cons op ops ih =>
    intro st hst hno
    have hstep : valuesLookup (applyOp st op).values u = none := by
      cases op with
      | defineOp d =>
        show valuesLookup ((defineSecret st d).1).values u = none
        rw [defineSecret_values]
        exact hst
      | setValueOp u' b =>
        have hne : ¬ u' = u := by
          intro he
          exact hno b (he ▸ List.mem_cons_self _ _)
        show valuesLookup ((setValue st u' b).1).values u = none
        cases hfind : findRecord st.records u' with
        | some r => simpa [setValue, hfind] using valuesLookup_insert_ne st.values u u' b hne hst
        | none => simpa [setValue, hfind] using hst
      | undefineOp u' =>
        show valuesLookup ((undefineSecret st u').1).values u = none
        cases hfind : findRecord st.records u' with
        | some r =>
          simp only [undefineSecret, hfind]
          exact clearValue_lookup_none _ u u' hst
        | none => simpa [undefineSecret, hfind] using hst
    exact ih (applyOp st op) hstep
      (fun b hb => hno b (List.mem_cons_of_mem _ hb))

theorem zeroize_allZeros (b : List Nat) : allZeros (zeroize b) := by
  intro x hx
  simp only [zeroize, List.mem_map] at hx
  obtain ⟨a, _, ha⟩ := hx
  exact ha.symm

theorem clearValue_freed_zero (st : Store) (u' : String)
    (hst : ∀ buf ∈ st.freedBuffers, allZeros buf) :
    ∀ buf ∈ (clearValue st u').freedBuffers, allZeros buf := by
  unfold clearValue
  split
  · rename_i b hb
    intro buf hbuf
    rcases List.mem_cons.mp hbuf with h | h
    · exact h ▸ zeroize_allZeros b
    · exact hst buf h
  · exact hst

theorem runOps_freed_zero (ops : List Op) :
    ∀ st : Store, (∀ buf ∈ st.freedBuffers, allZeros buf) →
      ∀ buf ∈ (runOps st ops).freedBuffers, allZeros buf := by
  induction ops with
  | nil => exact fun st hst => hst
  | cons op ops ih =>
    intro st hst
    apply ih
    cases op with
    | defineOp d =>
      show ∀ buf ∈ ((defineSecret st d).1).freedBuffers, allZeros buf
      rw [defineSecret_freed]
      exact hst
    | setValueOp u' b =>
      show ∀ buf ∈ ((setValue st u' b).1).freedBuffers, allZeros buf
      cases hfind : findRecord st.records u' with
      | some r => simpa [setValue, hfind] using hst
      | none => simpa [setValue, hfind] using hst
    | undefineOp u' =>
      show ∀ buf ∈ ((undefineSecret st u').1).freedBuffers, allZeros buf
      cases hfind : findRecord st.records u' with
      | some r =>
        simp only [undefineSecret, hfind]
        exact clearValue_freed_zero _ u' hst
      | none => simpa [undefineSecret, hfind] using hst

/-! ### Claim theorems -/

/-- Claim C1: for every byte sequence b — the empty sequence and sequences
holding zero bytes included — `set_value` with b on a defined secret handle
followed by `get_value` on the same handle returns exactly b, byte for byte.
The byte sequence is carried as a whole list with its explicit length, as
the binding passes `RSTRING(value)->ptr` with `RSTRING(value)->len` and
rebuilds the result with `rb_str_new(ret, value_size)`. -/
theorem set_then_get (st : Store) (u : String) (b : List Nat)
    (h : recordLive st u = true) :
    getValue (setValue st u b).1 u = .ok b := by
  obtain ⟨r, hr⟩ := Option.isSome_iff_exists.mp h
  simp [setValue, getValue, hr, valuesLookup_insert_self]

/-- Claim C1 witness: a concrete defined secret round-trips the byte
sequence [0, 255, 0], which is non-trivial only with explicit lengths. -/
theorem set_then_get_witness :
    recordLive st1 "aaaa" = true ∧
    getValue (setValue st1 "aaaa" [0, 255, 0]).1 "aaaa" = .ok [0, 255, 0] :=
  ⟨by decide, set_then_get st1 "aaaa" [0, 255, 0] (by decide)⟩

/-- Claim C4: defining a descriptor whose (usageType, usageID) pair — with a
usage type other than NONE — is already held by a live record fails with
`DuplicateKey`, and the failed call leaves the store unchanged, so the
secret count before the call equals the count after it. -/
theorem define_duplicate (st : Store) (d : SecretRecord)
    (ht : d.usageType ≠ 0)
    (hp : usagePairLive st d.usageType d.usageID = true) :
    (defineSecret st d).2 = .error .DuplicateKey ∧
    (defineSecret st d).1 = st ∧
    countSecrets (defineSecret st d).1 = countSecrets st := by
  unfold defineSecret
  split
  · exact ⟨rfl, rfl, rfl⟩
  · split
    · exact ⟨rfl, rfl, rfl⟩
    · rename_i hcond
      exact absurd ⟨ht, hp⟩ hcond

/-- Claim C4 witness: redefining volDesc's usage pair (VOLUME, "vol-1")
under a fresh UUID fails with `DuplicateKey` and leaves the store as it was. -/
theorem define_duplicate_witness :
    volDesc2.usageType ≠ 0 ∧
    usagePairLive st1 volDesc2.usageType volDesc2.usageID = true ∧
    ((defineSecret st1 volDesc2).2 = .error .DuplicateKey ∧
     (defineSecret st1 volDesc2).1 = st1 ∧
     countSecrets (defineSecret st1 volDesc2).1 = countSecrets st1) :=
  ⟨by decide, by decide, define_duplicate st1 volDesc2 (by decide) (by decide)⟩

/-- Claim C7: in every state of the store — in particular every reachable
one — the number of UUID strings returned by `listSecretUUIDs` equals the
integer returned by `countSecrets`, and `countSecrets` is non-negative. -/
theorem list_count_agree (st : Store) :
    ((listSecretUUIDs st).length : Int) = countSecrets st ∧
    0 ≤ countSecrets st := by
  refine ⟨by simp [listSecretUUIDs, countSecrets], ?_⟩
  simp only [countSecrets]
  exact Int.natCast_nonneg _

/-- Claim C8: the client-side handle free is idempotent — the first free
succeeds, and a second free after it succeeds with no error and no further
effect. The operation never consults the store, so this holds independently
of whether the underlying record still exists. -/
theorem free_idempotent (h : RbHandle) :
    (libvirt_secret_free h).2 = .ok () ∧
    libvirt_secret_free (libvirt_secret_free h).1 =
      ((libvirt_secret_free h).1, .ok ()) := by
  cases hp : h.ptr <;> simp [libvirt_secret_free, hp]

/-- Claim C2: for every secret handle on which `set_value` has never been
called — any operation sequence from the empty store containing no
`setValueOp` for that handle's UUID — while the record is live, `get_value`
fails with `ValueNotSet`; in particular it never returns an empty byte
string as if it were the value. -/
theorem get_value_never_set (ops : List Op) (u : String)
    (hno : ∀ b, Op.setValueOp u b ∉ ops)
    (hlive : recordLive (runOps Store.empty ops) u = true) :
    getValue (runOps Store.empty ops) u = .error .ValueNotSet := by
  have hn : valuesLookup (runOps Store.empty ops).values u = none :=
    no_set_no_value ops u Store.empty rfl hno
  obtain ⟨r, hr⟩ := Option.isSome_iff_exists.mp hlive
  simp [getValue, hr, hn]

/-- Claim C2 witness: a freshly defined secret whose value was never set
yields `ValueNotSet` on `get_value`. -/
theorem get_value_never_set_witness :
    (∀ b, Op.setValueOp "aaaa" b ∉ [Op.defineOp volDesc]) ∧
    recordLive (runOps Store.empty [Op.defineOp volDesc]) "aaaa" = true ∧
    getValue (runOps Store.empty [Op.defineOp volDesc]) "aaaa" =
      .error .ValueNotSet :=
  ⟨fun b => by simp, by decide,
   get_value_never_set [Op.defineOp volDesc] "aaaa" (fun b => by simp) (by decide)⟩

/-- Claim C5: after `undefine` succeeds on a defined handle, every
subsequent operation on that handle — uuid, usagetype, usageid, xml_desc,
set_value, get_value, undefine — fails with `StaleHandle`, and
`lookupByUUID` with the record's UUID fails with `NotFound`. -/
theorem undefine_then_stale (st : Store) (u : String) (b : List Nat)
    (h : recordLive st u = true) :
    (undefineSecret st u).2 = .ok () ∧
    secretUuid (undefineSecret st u).1 u = .error .StaleHandle ∧
    secretUsagetype (undefineSecret st u).1 u = .error .StaleHandle ∧
    secretUsageID (undefineSecret st u).1 u = .error .StaleHandle ∧
    secretXmlDesc (undefineSecret st u).1 u = .error .StaleHandle ∧
    (setValue (undefineSecret st u).1 u b).2 = .error .StaleHandle ∧
    getValue (undefineSecret st u).1 u = .error .StaleHandle ∧
    (undefineSecret (undefineSecret st u).1 u).2 = .error .StaleHandle ∧
    lookupByUUID (undefineSecret st u).1 u = .error .NotFound := by
  obtain ⟨r, hr⟩ := Option.isSome_iff_exists.mp h
  have h1 : (undefineSecret st u).1 =
      clearValue { st with records := removeRecord st.records u } u := by
    simp [undefineSecret, hr]
  obtain ⟨st', hst'⟩ : ∃ s, (undefineSecret st u).1 = s := ⟨_, rfl⟩
  have hnone : findRecord st'.records u = none := by
    rw [← hst', h1, clearValue_records]
    exact findRecord_removeRecord st.records u
  refine ⟨by simp [undefineSecret, hr], ?_, ?_, ?_, ?_, ?_, ?_, ?_, ?_⟩ <;>
    rw [hst'] <;>
    simp [secretUuid, secretUsagetype, secretUsageID, secretXmlDesc, setValue,
      getValue, undefineSecret, lookupByUUID, hnone]

/-- Claim C5 witness: undefining the concrete secret leaves every handle
operation failing with `StaleHandle` and its UUID unfindable. -/
theorem undefine_then_stale_witness :
    recordLive st1 "aaaa" = true ∧
    ((undefineSecret st1 "aaaa").2 = .ok () ∧
     secretUuid (undefineSecret st1 "aaaa").1 "aaaa" = .error .StaleHandle ∧
     secretUsagetype (undefineSecret st1 "aaaa").1 "aaaa" = .error .StaleHandle ∧
     secretUsageID (undefineSecret st1 "aaaa").1 "aaaa" = .error .StaleHandle ∧
     secretXmlDesc (undefineSecret st1 "aaaa").1 "aaaa" = .error .StaleHandle ∧
     (setValue (undefineSecret st1 "aaaa").1 "aaaa" [1]).2 = .error .StaleHandle ∧
     getValue (undefineSecret st1 "aaaa").1 "aaaa" = .error .StaleHandle ∧
     (undefineSecret (undefineSecret st1 "aaaa").1 "aaaa").2 = .error .StaleHandle ∧
     lookupByUUID (undefineSecret st1 "aaaa").1 "aaaa" = .error .NotFound) :=
  ⟨by decide, undefine_then_stale st1 "aaaa" [1] (by decide)⟩

/-- Claim C9: in every state reachable from the empty store, every value
buffer that was released back to the allocator when a record was destroyed
had been overwritten with zeros first — the released-buffer ledger holds
only all-zero contents, on every destruction path. -/
theorem freed_buffers_zero (ops : List Op) (buf : List Nat)
    (hb : buf ∈ (runOps Store.empty ops).freedBuffers) : allZeros buf :=
  runOps_freed_zero ops Store.empty
    (fun b hb0 => absurd hb0 (List.not_mem_nil b)) buf hb

/-- Claim C9 witness: defining a secret, storing the value [5, 7] and
undefining releases exactly one buffer, whose content [0, 0] is all zeros
and keeps the value's length. -/
theorem freed_buffers_zero_witness :
    [0, 0] ∈ (runOps Store.empty opsW).freedBuffers ∧ allZeros [0, 0] :=
  ⟨by decide, freed_buffers_zero opsW [0, 0] (by decide)⟩

/-- Claim C3 (code bug): after defining a VOLUME secret with usage ID
"vol-1", the store-level lookup by usage finds it and its usage ID reads
back as "vol-1" — but the binding's `lookup_secret_by_usage` queries the
store with the raw fixnum tag 3 = 2*1+1 instead of 1 (secret.c line 92
passes the `VALUE` with no NUM2INT-style conversion), so the composed
define-then-lookup fails with `NotFound` instead of returning the handle
the claim describes. -/
theorem lookup_by_usage_bug :
    (defineSecret Store.empty volDesc).2 = .ok "aaaa" ∧
    lookupByUsage st1 1 "vol-1" = .ok "aaaa" ∧
    secretUsageID st1 "aaaa" = .ok "vol-1" ∧
    rubyFixnumTag 1 = 3 ∧
    libvirt_conn_lookup_secret_by_usage st1 1 "vol-1" = .error .NotFound :=
  ⟨rfl, rfl, rfl, by decide, rfl⟩

/-- Claim C6 counterexample: calling define with the non-zero flags value 1
is not rejected — the binding constructs the call to `virSecretDefineXML`
with flags 1, forwarding it to the underlying store. -/
theorem define_flags_cex :
    (libvirt_conn_define_secret_xml_call "<secret/>" (some 1)).flags = 1 := rfl

/-- Claim C6 (amended): define performs no zero-validation of its flags
argument: an omitted flags defaults to 0, and any given flags value is
forwarded unchanged to the underlying store's define call. -/
theorem define_flags_forwarded (xml : String) (f : Nat) :
    (libvirt_conn_define_secret_xml_call xml (some f)).flags = f ∧
    (libvirt_conn_define_secret_xml_call xml none).flags = 0 :=
  ⟨rfl, rfl⟩

/-- Claim C10 counterexample: at the fixnum -1 the tagged encoding 2*t+1 is
-1 itself, so the underlying store is queried with a usage-type value equal
to t — the claim's universal statement fails there. -/
theorem fixnum_tag_fixed_point :
    rubyFixnumTag (-1) = -1 ∧
    libvirt_conn_lookup_secret_by_usage Store.empty (-1) "vol-1" =
      lookupByUsage Store.empty (-1) "vol-1" := by
  constructor
  · decide
  · simp only [libvirt_conn_lookup_secret_by_usage]
    norm_num [rubyFixnumTag]

/-- Claim C10 (amended): the binding's `lookup_secret_by_usage` queries the
store with the raw tagged Ruby VALUE `2*t + 1` in place of the fixnum t,
and for every fixnum t other than -1 (in particular every valid,
non-negative usage type) that value differs from t. -/
theorem lookup_usage_tag_amended (st : Store) (t : Int) (id : String)
    (h : t ≠ -1) :
    libvirt_conn_lookup_secret_by_usage st t id =
      lookupByUsage st (rubyFixnumTag t) id ∧
    rubyFixnumTag t ≠ t := by
  refine ⟨rfl, ?_⟩
  simp only [rubyFixnumTag]
  omega

/-- Claim C10 witness: at the valid usage type 1 (VOLUME) the store is
queried with 3 ≠ 1. -/
theorem lookup_usage_tag_amended_witness :
    (1 : Int) ≠ -1 ∧
    (libvirt_conn_lookup_secret_by_usage st1 1 "vol-1" =
       lookupByUsage st1 (rubyFixnumTag 1) "vol-1" ∧
     rubyFixnumTag 1 ≠ 1) :=
  ⟨by decide, lookup_usage_tag_amended st1 1 "vol-1" (by decide)⟩

end VirtSecret
